import Mathlib

/-!
Verification of the claude-memory-mcp server (v2.7.0 revision of `index.js`).

The server keeps five SQLite tables (decisions, errors, context, learnings,
sessions) and exposes MCP tools over them.  This file gives a shallow
embedding of those tables and of the tool handlers, and proves the properties
claimed about them.

Modelling conventions, faithful to the source:
* `TEXT` timestamp columns (`created_at`, `updated_at`, `last_accessed`,
  SQLite `CURRENT_TIMESTAMP`, the `Date.now()` cutoffs) are modelled as `Nat`
  instants counted in milliseconds; the SQLite text comparison of such
  timestamps is order-isomorphic to the numeric order.
* The decision `date` column keeps its `TEXT` type (`String`), ordered
  lexicographically exactly as SQLite `ORDER BY date` orders `TEXT`.
* JavaScript numbers that the code range-checks or divides (the `priority`
  argument of `set_priority`, the day count of `getTier`) are modelled as
  `Rat`; every value and comparison that actually occurs is exact in both.
* `archived INTEGER` is modelled as `Bool`: every read path treats `NULL`
  and `0` identically (`archived IS NULL OR archived = 0`), writes store `1`.
* The `synced_at` column and the Firestore mirror are omitted: no modelled
  operation reads them.
* `ORDER BY` is modelled as `List.insertionSort` on the query's sort key
  (SQLite fixes no tie order; any sort consistent with the key refines it).
-/

/-- A row of the `decisions` table (v2.7.0 schema). -/
structure Decision where
  id : Nat
  project : String
  date : String
  decision : String
  rationale : Option String
  category : Option String
  priority : Rat
  archived : Bool
  access_count : Option Nat
  last_accessed : Option Nat
  created_at : Nat
  deriving Repr, DecidableEq

/-- A row of the `errors` table (v2.7.0 schema). -/
structure ErrorRow where
  id : Nat
  project : String
  error_pattern : String
  solution : String
  context : Option String
  category : Option String
  priority : Rat
  archived : Bool
  access_count : Option Nat
  last_accessed : Option Nat
  created_at : Nat
  deriving Repr, DecidableEq

/-- A row of the `context` table; `UNIQUE(project, key)`, both `NOT NULL`.
The surrogate `id` column is never consulted by any operation and is omitted. -/
structure ContextRow where
  project : String
  key : String
  value : String
  updated_at : Nat
  deriving Repr, DecidableEq

/-- A row of the `learnings` table; `project` is nullable (`none` = global). -/
structure Learning where
  id : Nat
  project : Option String
  category : String
  content : String
  priority : Rat
  archived : Bool
  access_count : Option Nat
  last_accessed : Option Nat
  created_at : Nat
  deriving Repr, DecidableEq

/-- A row of the `sessions` table; `workspace` is nullable and
`UNIQUE(project, workspace)`.  The surrogate `id` is never consulted by any
modelled operation and is omitted. -/
structure SessionRow where
  project : String
  workspace : Option String
  task : String
  status : Option String
  notes : Option String
  updated_at : Nat
  deriving Repr, DecidableEq

/-- The local database: the five tables. -/
structure State where
  decisions : List Decision
  errors : List ErrorRow
  contexts : List ContextRow
  learnings : List Learning
  sessions : List SessionRow
  deriving Repr, DecidableEq

def emptyState : State := ⟨[], [], [], [], []⟩

/-! ### JavaScript argument coercions

The handlers read optional arguments with `||`, so the empty string and the
number `0` fall back to the default exactly like an absent argument. -/

/-- `args.x || null` / truthiness test for an optional string argument. -/
def strArg (o : Option String) : Option String :=
  match o with
  | some "" => none
  | o => o

/-- `args.x || d` for an optional numeric argument (`0` is falsy). -/
def jsNatOr (n : Option Nat) (d : Nat) : Nat :=
  match n with
  | some 0 => d
  | none => d
  | some k => k

/-- `x || d` for an optional string with a string default (empty is falsy). -/
def jsStrOr (o : Option String) (d : String) : String :=
  match o with
  | some "" => d
  | none => d
  | some s => s

/-! ### `LIKE '%q%'` matching

SQLite `LIKE` is case-insensitive for ASCII; the pattern is wrapped in `%`
on both sides, i.e. an unanchored substring match. -/

def lowerChars (s : String) : List Char :=
  s.toList.map Char.toLower

/-- `needle` occurs as a contiguous infix of `hay`. -/
def containsSub (needle : List Char) : List Char → Bool
  | [] => needle.isEmpty
  | c :: t => needle.isPrefixOf (c :: t) || containsSub needle t

/-- `field LIKE '%q%'` (case-insensitive unanchored substring). -/
def likeMatch (field : String) (q : String) : Bool :=
  containsSub (lowerChars q) (lowerChars field)

/-- `field LIKE '%q%'` for a nullable column: SQL `NULL LIKE p` is not true. -/
def likeMatchOpt (field : Option String) (q : String) : Bool :=
  match field with
  | some f => likeMatch f q
  | none => false

/-! ### Sort keys

Each query orders by `priority DESC` and then a recency column `DESC`. -/

/-- `ORDER BY priority DESC, date DESC` for decisions. -/
def decOrd (a b : Decision) : Prop :=
  b.priority < a.priority ∨ (b.priority = a.priority ∧ b.date ≤ a.date)

instance : DecidableRel decOrd := fun _ _ =>
  inferInstanceAs (Decidable (_ ∨ _))

instance : IsTotal Decision decOrd where
  total a b := by
    rcases lt_trichotomy b.priority a.priority with h | h | h
    · exact Or.inl (Or.inl h)
    · rcases le_total b.date a.date with hd | hd
      · exact Or.inl (Or.inr ⟨h, hd⟩)
      · exact Or.inr (Or.inr ⟨h.symm, hd⟩)
    · exact Or.inr (Or.inl h)

instance : IsTrans Decision decOrd where
  trans a b c hab hbc := by
    rcases hab with h1 | ⟨h1, d1⟩ <;> rcases hbc with h2 | ⟨h2, d2⟩
    · exact Or.inl (h2.trans h1)
    · exact Or.inl (h2 ▸ h1)
    · exact Or.inl (h1 ▸ h2)
    · exact Or.inr ⟨h2.trans h1, d2.trans d1⟩

/-- `ORDER BY priority DESC, created_at DESC` for errors. -/
def errOrd (a b : ErrorRow) : Prop :=
  b.priority < a.priority ∨ (b.priority = a.priority ∧ b.created_at ≤ a.created_at)

instance : DecidableRel errOrd := fun _ _ =>
  inferInstanceAs (Decidable (_ ∨ _))

instance : IsTotal ErrorRow errOrd where
  total a b := by
    rcases lt_trichotomy b.priority a.priority with h | h | h
    · exact Or.inl (Or.inl h)
    · rcases le_total b.created_at a.created_at with hd | hd
      · exact Or.inl (Or.inr ⟨h, hd⟩)
      · exact Or.inr (Or.inr ⟨h.symm, hd⟩)
    · exact Or.inr (Or.inl h)

instance : IsTrans ErrorRow errOrd where
  trans a b c hab hbc := by
    rcases hab with h1 | ⟨h1, d1⟩ <;> rcases hbc with h2 | ⟨h2, d2⟩
    · exact Or.inl (h2.trans h1)
    · exact Or.inl (h2 ▸ h1)
    · exact Or.inl (h1 ▸ h2)
    · exact Or.inr ⟨h2.trans h1, d2.trans d1⟩

/-- `ORDER BY priority DESC, created_at DESC` for learnings. -/
def learnOrd (a b : Learning) : Prop :=
  b.priority < a.priority ∨ (b.priority = a.priority ∧ b.created_at ≤ a.created_at)

instance : DecidableRel learnOrd := fun _ _ =>
  inferInstanceAs (Decidable (_ ∨ _))

instance : IsTotal Learning learnOrd where
  total a b := by
    rcases lt_trichotomy b.priority a.priority with h | h | h
    · exact Or.inl (Or.inl h)
    · rcases le_total b.created_at a.created_at with hd | hd
      · exact Or.inl (Or.inr ⟨h, hd⟩)
      · exact Or.inr (Or.inr ⟨h.symm, hd⟩)
    · exact Or.inr (Or.inl h)

instance : IsTrans Learning learnOrd where
  trans a b c hab hbc := by
    rcases hab with h1 | ⟨h1, d1⟩ <;> rcases hbc with h2 | ⟨h2, d2⟩
    · exact Or.inl (h2.trans h1)
    · exact Or.inl (h2 ▸ h1)
    · exact Or.inl (h1 ▸ h2)
    · exact Or.inr ⟨h2.trans h1, d2.trans d1⟩

/-- `ORDER BY updated_at DESC` for `getAllSessionsForProject`. -/
def sessOrd (a b : SessionRow) : Prop :=
  b.updated_at ≤ a.updated_at

instance : DecidableRel sessOrd := fun _ _ =>
  inferInstanceAs (Decidable (_ ≤ _))

instance : IsTotal SessionRow sessOrd where
  total a b := (le_total b.updated_at a.updated_at)

instance : IsTrans SessionRow sessOrd where
  trans _ _ _ hab hbc := hbc.trans hab

/-! ### Prepared read statements (v2.7.0) -/

/-- `SELECT * FROM decisions WHERE project = ? AND (archived IS NULL OR
archived = 0) ORDER BY priority DESC, date DESC LIMIT ?` -/
def getDecisions (s : State) (project : String) (limit : Nat) : List Decision :=
  ((s.decisions.filter fun d => d.project == project && !d.archived).insertionSort
    decOrd).take limit

/-- `... AND category = ? ... LIMIT ?` -/
def getDecisionsByCategory (s : State) (project category : String) (limit : Nat) :
    List Decision :=
  ((s.decisions.filter fun d =>
    d.project == project && d.category == some category && !d.archived).insertionSort
    decOrd).take limit

/-- `... AND (decision LIKE ? OR rationale LIKE ?) ...` (no LIMIT) -/
def searchDecisions (s : State) (project q : String) : List Decision :=
  (s.decisions.filter fun d =>
    d.project == project && !d.archived &&
      (likeMatch d.decision q || likeMatchOpt d.rationale q)).insertionSort decOrd

/-- `SELECT * FROM errors WHERE project = ? AND (archived IS NULL OR archived
= 0) AND error_pattern LIKE ? ORDER BY priority DESC, created_at DESC LIMIT 5` -/
def findSolution (s : State) (project q : String) : List ErrorRow :=
  ((s.errors.filter fun e =>
    e.project == project && !e.archived && likeMatch e.error_pattern q).insertionSort
    errOrd).take 5

/-- `... AND category = ? ... LIMIT 5` -/
def findSolutionByCategory (s : State) (project category q : String) : List ErrorRow :=
  ((s.errors.filter fun e =>
    e.project == project && e.category == some category && !e.archived &&
      likeMatch e.error_pattern q).insertionSort errOrd).take 5

/-- `SELECT * FROM errors WHERE project = ? AND (archived IS NULL OR archived
= 0) ORDER BY priority DESC, created_at DESC LIMIT ?` -/
def getRecentErrors (s : State) (project : String) (limit : Nat) : List ErrorRow :=
  ((s.errors.filter fun e => e.project == project && !e.archived).insertionSort
    errOrd).take limit

/-- `SELECT * FROM learnings WHERE (project = ? OR project IS NULL) AND
(archived IS NULL OR archived = 0) ORDER BY priority DESC, created_at DESC
LIMIT ?` -/
def getLearnings (s : State) (project : String) (limit : Nat) : List Learning :=
  ((s.learnings.filter fun l =>
    (l.project == some project || l.project == none) && !l.archived).insertionSort
    learnOrd).take limit

/-- `... AND content LIKE ? ...` (no LIMIT) -/
def searchLearnings (s : State) (project q : String) : List Learning :=
  (s.learnings.filter fun l =>
    (l.project == some project || l.project == none) && !l.archived &&
      likeMatch l.content q).insertionSort learnOrd

/-- `SELECT key, value FROM context WHERE project = ?` (key/value rows). -/
def getContextRows (s : State) (project : String) : List ContextRow :=
  s.contexts.filter fun c => c.project == project

/-- `SELECT * FROM sessions WHERE project = ? ORDER BY updated_at DESC` -/
def getAllSessionsForProject (s : State) (project : String) : List SessionRow :=
  (s.sessions.filter fun r => r.project == project).insertionSort sessOrd

/-- `WHERE project = ? AND (workspace = ? OR (workspace IS NULL AND ? IS
NULL))`: with a non-null parameter only `workspace = ?` can be true, with a
null parameter only the `IS NULL` disjunct can. -/
def sessionKeyMatch (project : String) (w : Option String) (r : SessionRow) : Bool :=
  r.project == project &&
    (match w with
     | some ws => r.workspace == some ws
     | none => r.workspace == none)

/-- `getSessionWithWorkspace.get`: first matching row. -/
def getSessionWithWorkspace (s : State) (project : String) (w : Option String) :
    Option SessionRow :=
  s.sessions.find? (sessionKeyMatch project w)

/-! ### Access tracking (v2.7.0)

`results.forEach(r => trackXAccess.run(r.id))`: each returned row's id gets
`UPDATE x SET access_count = COALESCE(access_count, 0) + 1, last_accessed =
CURRENT_TIMESTAMP WHERE id = ?`.  The fold over ids is generic in the table's
row type. -/

section Track

variable {α : Type} (gid : α → Nat) (upd : α → α)

/-- `UPDATE ... WHERE id = ?`: rewrite every row whose id matches. -/
def updateById (i : Nat) (rows : List α) : List α :=
  rows.map fun r => if gid r == i then upd r else r

/-- One `UPDATE` per tracked id, in order. -/
def trackFold (ids : List Nat) (rows : List α) : List α :=
  ids.foldl (fun acc i => updateById gid upd i acc) rows

/-- The first row with the given id. -/
def lookupId (i : Nat) : List α → Option α
  | [] => none
  | r :: t => if gid r == i then some r else lookupId i t

end Track

/-- The row update of `trackDecisionAccess`. -/
def trackDecisionAccess (now : Nat) (d : Decision) : Decision :=
  { d with access_count := some (d.access_count.getD 0 + 1), last_accessed := some now }

/-- The row update of `trackErrorAccess`. -/
def trackErrorAccess (now : Nat) (e : ErrorRow) : ErrorRow :=
  { e with access_count := some (e.access_count.getD 0 + 1), last_accessed := some now }

/-- The row update of `trackLearningAccess`. -/
def trackLearningAccess (now : Nat) (l : Learning) : Learning :=
  { l with access_count := some (l.access_count.getD 0 + 1), last_accessed := some now }

/-! ### Recall / list handlers -/

/-- The `recall_decisions` tool: category filter takes precedence, then
free-text search, then the plain listing; every returned row's access is
tracked. -/
def recall_decisions (s : State) (now : Nat) (project : String)
    (search category : Option String) (limit : Option Nat) : List Decision × State :=
  let results :=
    match strArg category with
    | some c => getDecisionsByCategory s project c (jsNatOr limit 10)
    | none =>
      match strArg search with
      | some q => searchDecisions s project q
      | none => getDecisions s project (jsNatOr limit 10)
  (results,
   { s with decisions :=
      trackFold Decision.id (trackDecisionAccess now) (results.map Decision.id) s.decisions })

/-- The `list_decisions` tool: the same query, no access tracking, no state
change. -/
def list_decisions (s : State) (project : String) (limit : Option Nat) : List Decision :=
  getDecisions s project (jsNatOr limit 10)

/-- The `find_solution` tool (access-tracked). -/
def find_solution (s : State) (now : Nat) (project err : String)
    (category : Option String) : List ErrorRow × State :=
  let results :=
    match strArg category with
    | some c => findSolutionByCategory s project c err
    | none => findSolution s project err
  (results,
   { s with errors :=
      trackFold ErrorRow.id (trackErrorAccess now) (results.map ErrorRow.id) s.errors })

/-- The `recall_learnings` tool (access-tracked). -/
def recall_learnings (s : State) (now : Nat) (project : String)
    (search : Option String) (limit : Option Nat) : List Learning × State :=
  let results :=
    match strArg search with
    | some q => searchLearnings s project q
    | none => getLearnings s project (jsNatOr limit 20)
  (results,
   { s with learnings :=
      trackFold Learning.id (trackLearningAccess now) (results.map Learning.id) s.learnings })

/-- The `list_errors` tool: plain query, no access tracking, no state change. -/
def list_errors (s : State) (project : String) (limit : Option Nat) : List ErrorRow :=
  getRecentErrors s project (jsNatOr limit 10)

/-! ### Context upsert -/

/-- `INSERT INTO context ... ON CONFLICT(project, key) DO UPDATE SET value =
excluded.value, updated_at = CURRENT_TIMESTAMP` on the rows of the `context`
table.  `project` and `key` are `NOT NULL`, so the conflict target always
detects an existing (project, key) row and the statement is a true upsert. -/
def upsertContextList (now : Nat) (project key value : String)
    (l : List ContextRow) : List ContextRow :=
  if l.any fun r => r.project == project && r.key == key then
    l.map fun r =>
      if r.project == project && r.key == key then
        { r with value := value, updated_at := now }
      else r
  else
    l ++ [⟨project, key, value, now⟩]

/-- The `upsertContext` prepared statement applied to the database. -/
def upsertContext (s : State) (now : Nat) (project key value : String) : State :=
  { s with contexts := upsertContextList now project key value s.contexts }

/-- The `set_context` tool body. -/
def set_context (s : State) (now : Nat) (project key value : String) : State :=
  upsertContext s now project key value

/-! ### Sessions -/

/-- `INSERT INTO sessions ... ON CONFLICT(project, workspace) DO UPDATE ...`.
SQLite `UNIQUE` constraints treat `NULL` values as pairwise distinct, so a row
with `workspace IS NULL` never conflicts with another such row: with a null
workspace the `ON CONFLICT` clause cannot fire and the statement always
inserts a fresh row.  Only a non-null workspace gets upsert behaviour. -/
def upsertSessionWithWorkspace (s : State) (now : Nat) (project : String)
    (workspace : Option String) (task : String) (status notes : Option String) : State :=
  match workspace with
  | some w =>
    if s.sessions.any fun r => r.project == project && r.workspace == some w then
      { s with sessions := s.sessions.map fun r =>
          if r.project == project && r.workspace == some w then
            { r with task := task, status := status, notes := notes, updated_at := now }
          else r }
    else
      { s with sessions := s.sessions ++ [⟨project, some w, task, status, notes, now⟩] }
  | none =>
    { s with sessions := s.sessions ++ [⟨project, none, task, status, notes, now⟩] }

/-- The `save_session` tool body: `workspace = args.workspace || null`,
`status = args.status || 'in-progress'`, `notes = args.notes || null`. -/
def save_session (s : State) (now : Nat) (project : String)
    (workspace : Option String) (task : String) (status notes : Option String) : State :=
  upsertSessionWithWorkspace s now project (strArg workspace) task
    (some (jsStrOr status "in-progress")) (strArg notes)

/-- Result shape of the `get_session` tool. -/
inductive GetSessionResult where
  | one (r : SessionRow)
  | many (rs : List SessionRow)
  | noneFound
  deriving Repr, DecidableEq

/-- The `get_session` tool body: an explicit workspace argument targets that
workspace's row, an absent one returns every session of the project. -/
def get_session (s : State) (project : String) (workspace : Option String) :
    GetSessionResult :=
  match workspace with
  | some w =>
    match getSessionWithWorkspace s project (some w) with
    | some r => GetSessionResult.one r
    | none => GetSessionResult.noneFound
  | none =>
    let sessions := getAllSessionsForProject s project
    if sessions.length > 0 then GetSessionResult.many sessions
    else GetSessionResult.noneFound

/-- Result shape of the `clear_session` tool. -/
inductive ClearSessionResult where
  | clearedOne (project workspace : String)
  | noSession
  | clearedAll (project : String) (n : Nat)
  | noSessions
  deriving Repr, DecidableEq

/-- The `clear_session` tool body: with an explicit workspace it runs
`deleteSessionWithWorkspace`; without one it runs
`DELETE FROM sessions WHERE project = ?` and reports `result.changes`. -/
def clear_session (s : State) (project : String) (workspace : Option String) :
    ClearSessionResult × State :=
  match workspace with
  | some w =>
    let changes := s.sessions.countP (sessionKeyMatch project (some w))
    (if changes > 0 then ClearSessionResult.clearedOne project w
     else ClearSessionResult.noSession,
     { s with sessions := s.sessions.filter fun r => !sessionKeyMatch project (some w) r })
  | none =>
    let changes := s.sessions.countP fun r => r.project == project
    (if changes > 0 then ClearSessionResult.clearedAll project changes
     else ClearSessionResult.noSessions,
     { s with sessions := s.sessions.filter fun r => !(r.project == project) })

/-! ### Archive / priority -/

/-- Result shape of the `archive` tool. -/
inductive ArchiveResult where
  | invalidType (ty : String)
  | archivedOk (ty : String) (id : Nat)
  | notFound (ty : String) (id : Nat)
  deriving Repr, DecidableEq

/-- The `archive` tool body: `UPDATE ${table} SET archived = 1 WHERE id = ?`,
reporting whether any row changed; an unmapped type is rejected first. -/
def archive (s : State) (ty : String) (id : Nat) : ArchiveResult × State :=
  match ty with
  | "decision" =>
    (if s.decisions.countP (fun r => r.id == id) > 0 then ArchiveResult.archivedOk ty id
     else ArchiveResult.notFound ty id,
     { s with decisions := s.decisions.map fun r =>
        if r.id == id then { r with archived := true } else r })
  | "error" =>
    (if s.errors.countP (fun r => r.id == id) > 0 then ArchiveResult.archivedOk ty id
     else ArchiveResult.notFound ty id,
     { s with errors := s.errors.map fun r =>
        if r.id == id then { r with archived := true } else r })
  | "learning" =>
    (if s.learnings.countP (fun r => r.id == id) > 0 then ArchiveResult.archivedOk ty id
     else ArchiveResult.notFound ty id,
     { s with learnings := s.learnings.map fun r =>
        if r.id == id then { r with archived := true } else r })
  | _ => (ArchiveResult.invalidType ty, s)

/-- Result shape of the `set_priority` tool. -/
inductive SetPriorityResult where
  | invalidType (ty : String)
  | invalidPriority (p : Rat)
  | okSet (ty : String) (id : Nat) (p : Rat)
  | notFound (ty : String) (id : Nat)
  deriving Repr, DecidableEq

/-- The `set_priority` tool body.  The type is validated first; the priority
check is the range test `priority < 0 || priority > 2` from the source — it
does not test integrality, so any number inside `[0, 2]` passes. -/
def set_priority (s : State) (ty : String) (id : Nat) (priority : Rat) :
    SetPriorityResult × State :=
  if ty = "decision" ∨ ty = "error" ∨ ty = "learning" then
    if priority < 0 ∨ 2 < priority then (SetPriorityResult.invalidPriority priority, s)
    else
      match ty with
      | "decision" =>
        (if s.decisions.countP (fun r => r.id == id) > 0 then
           SetPriorityResult.okSet ty id priority
         else SetPriorityResult.notFound ty id,
         { s with decisions := s.decisions.map fun r =>
            if r.id == id then { r with priority := priority } else r })
      | "error" =>
        (if s.errors.countP (fun r => r.id == id) > 0 then
           SetPriorityResult.okSet ty id priority
         else SetPriorityResult.notFound ty id,
         { s with errors := s.errors.map fun r =>
            if r.id == id then { r with priority := priority } else r })
      | _ =>
        (if s.learnings.countP (fun r => r.id == id) > 0 then
           SetPriorityResult.okSet ty id priority
         else SetPriorityResult.notFound ty id,
         { s with learnings := s.learnings.map fun r =>
            if r.id == id then { r with priority := priority } else r })
  else (SetPriorityResult.invalidType ty, s)

/-! ### Memory tiers (v2.7.0) -/

/-- The `getTier` helper of `load_comprehensive_memory`:
`access_count || 0`, days since access `(now - last_accessed) / 86400000`
(`Infinity` when never accessed), hot on `count ≥ 5` or `days ≤ 7`, warm on
`count ≥ 2` or `days ≤ 30`, else cold. -/
def getTier (access_count : Option Nat) (last_accessed : Option Nat) (now : Nat) :
    String :=
  let accessCount := access_count.getD 0
  let daysSinceAccess : Option Rat :=
    last_accessed.map fun t => ((now - t : Nat) : Rat) / (1000 * 60 * 60 * 24)
  let within : Rat → Bool := fun limit =>
    match daysSinceAccess with
    | some d => decide (d ≤ limit)
    | none => false
  if decide (5 ≤ accessCount) || within 7 then "hot"
  else if decide (2 ≤ accessCount) || within 30 then "warm"
  else "cold"

/-! ### Prune -/

/-- The `prune` tool body: `days = args.days || 90`; for each of the three
archivable tables run `DELETE ... WHERE archived = 1 AND created_at < cutoff`
(plus `AND project = ?` unless the project is `'all'`), summing the change
counts.  Context and session rows are not part of the loop. -/
def prune (s : State) (now : Nat) (project : String) (days : Option Nat) :
    Nat × State :=
  let d := jsNatOr days 90
  let cutoff := now - d * 86400000
  let delD := fun (r : Decision) =>
    r.archived && decide (r.created_at < cutoff) && (project == "all" || r.project == project)
  let delE := fun (r : ErrorRow) =>
    r.archived && decide (r.created_at < cutoff) && (project == "all" || r.project == project)
  let delL := fun (r : Learning) =>
    r.archived && decide (r.created_at < cutoff) &&
      (project == "all" || r.project == some project)
  (s.decisions.countP delD + s.errors.countP delE + s.learnings.countP delL,
   { s with
      decisions := s.decisions.filter fun r => !delD r,
      errors := s.errors.filter fun r => !delE r,
      learnings := s.learnings.filter fun r => !delL r })

/-! ### Export (v2.7.0)

The v2.7.0 module prepares exactly the statements in `definedStatements`.
The `export_memory` case still reads `session: getSession.get(args.project)`
and `import_memory` still calls `upsertSession.run(...)`, but the workspace
migration replaced those two statements with `getSessionWithWorkspace` /
`upsertSessionWithWorkspace`, so `getSession` and `upsertSession` are unbound
identifiers in this revision: evaluating the export object throws
`ReferenceError: getSession is not defined`. -/

/-- The prepared-statement constants actually defined in the v2.7.0 module. -/
def definedStatements : List String :=
  ["insertDecision", "getDecisions", "getDecisionsByCategory", "searchDecisions",
   "insertError", "findSolution", "findSolutionByCategory", "getRecentErrors",
   "upsertContext", "getContext", "getContextValue", "deleteContext",
   "insertLearning", "getLearnings", "searchLearnings",
   "upsertSessionWithWorkspace", "getSessionWithWorkspace",
   "deleteSessionWithWorkspace", "getAllSessionsForProject",
   "trackDecisionAccess", "trackErrorAccess", "trackLearningAccess"]

/-- The document `export_memory` assembles. -/
structure ExportDoc where
  project : String
  decisions : List Decision
  errors : List ErrorRow
  context : List ContextRow
  learnings : List Learning
  session : Option SessionRow
  deriving Repr, DecidableEq

/-- The `export_memory` tool body.  The four table queries are evaluated
first (object fields evaluate in order); the `session` field then resolves
the identifier `getSession`, which v2.7.0 does not define, so evaluation
throws before a document can be produced. -/
def export_memory (s : State) (project : String) (includeArchived : Bool) :
    Except String ExportDoc :=
  let decs := s.decisions.filter fun d =>
    d.project == project && (includeArchived || !d.archived)
  let errs := s.errors.filter fun e =>
    e.project == project && (includeArchived || !e.archived)
  let ctx := s.contexts.filter fun c => c.project == project
  let lrn := s.learnings.filter fun l =>
    l.project == some project && (includeArchived || !l.archived)
  if definedStatements.contains "getSession" then
    Except.ok ⟨project, decs, errs, ctx, lrn, none⟩
  else
    Except.error "getSession is not defined"

/-! ### Text rendering at the tool boundary -/

/-- `x || 'N/A'`. -/
def jsOrNA (o : Option String) : String := jsStrOr o "N/A"

/-- `r.category ? ` [cat]` : ''`. -/
def categoryTag (c : Option String) : String :=
  match strArg c with
  | some cat => " [" ++ cat ++ "]"
  | none => ""

def renderDecision (r : Decision) : String :=
  "[" ++ r.date ++ "]" ++ categoryTag r.category ++ " " ++ r.decision ++
    "\n  Rationale: " ++ jsOrNA r.rationale

def renderDecisionListed (r : Decision) : String :=
  "[ID:" ++ toString r.id ++ "] [" ++ r.date ++ "]" ++ categoryTag r.category ++
    " " ++ r.decision ++ "\n  Rationale: " ++ jsOrNA r.rationale

def renderSolution (r : ErrorRow) : String :=
  "Error:" ++ categoryTag r.category ++ " " ++ r.error_pattern ++
    "\nSolution: " ++ r.solution ++ "\nContext: " ++ jsOrNA r.context

def renderErrorListed (r : ErrorRow) : String :=
  "[ID:" ++ toString r.id ++ "]" ++ categoryTag r.category ++ " " ++
    r.error_pattern ++ "\n  Solution: " ++ r.solution ++ "\n  Context: " ++
    jsOrNA r.context

def renderLearning (r : Learning) : String :=
  "[" ++ r.category ++ "] " ++ r.content ++
    (match strArg r.project with
     | some p => " (" ++ p ++ ")"
     | none => " (global)")

/-- `getTimeAgo`: relative time between now and a stored timestamp (both in
milliseconds).  The `toLocaleDateString()` branch, locale-dependent in the
source, is an abstract stand-in; no theorem depends on it. -/
def getTimeAgo (now timestamp : Nat) : String :=
  let diffMs := now - timestamp
  let diffMins := diffMs / 60000
  let diffHours := diffMs / 3600000
  let diffDays := diffMs / 86400000
  if diffMins < 1 then "just now"
  else if diffMins < 60 then toString diffMins ++ "m ago"
  else if diffHours < 24 then toString diffHours ++ "h ago"
  else if diffDays < 7 then toString diffDays ++ "d ago"
  else "(date)"

def renderSessionOne (now : Nat) (r : SessionRow) : String :=
  "Last session" ++
    (match strArg r.workspace with
     | some w => " [" ++ w ++ "]"
     | none => "") ++
    " (" ++ getTimeAgo now r.updated_at ++ "):\nTask: " ++ r.task ++
    "\nStatus: " ++ jsStrOr r.status "in-progress" ++
    "\nNotes: " ++ jsStrOr r.notes "None"

def renderSessionEntry (now : Nat) (r : SessionRow) : String :=
  (match strArg r.workspace with
   | some w => "[" ++ w ++ "] "
   | none => "[default] ") ++
    "(" ++ getTimeAgo now r.updated_at ++ "):\n  Task: " ++ r.task ++
    "\n  Status: " ++ jsStrOr r.status "in-progress" ++
    "\n  Notes: " ++ jsStrOr r.notes "None"

/-- Stand-in for JavaScript number formatting in messages; no theorem depends
on its output. -/
def numStr (q : Rat) : String :=
  if q.den = 1 then toString q.num else toString q.num ++ "/" ++ toString q.den

/-- `priorityLabels[priority]` — indexing with a non-integer or out-of-range
number yields `undefined` in JavaScript. -/
def priorityLabel (p : Rat) : String :=
  if p = 0 then "normal" else if p = 1 then "high"
  else if p = 2 then "critical" else "undefined"

def renderArchive (res : ArchiveResult) : String :=
  match res with
  | ArchiveResult.invalidType ty =>
    "Invalid type: " ++ ty ++ ". Use 'decision', 'error', or 'learning'"
  | ArchiveResult.archivedOk ty i => "Archived " ++ ty ++ " #" ++ toString i
  | ArchiveResult.notFound ty i => "No " ++ ty ++ " found with ID " ++ toString i

def renderSetPriority (res : SetPriorityResult) : String :=
  match res with
  | SetPriorityResult.invalidType ty =>
    "Invalid type: " ++ ty ++ ". Use 'decision', 'error', or 'learning'"
  | SetPriorityResult.invalidPriority p =>
    "Invalid priority: " ++ numStr p ++ ". Use 0 (normal), 1 (high), or 2 (critical)"
  | SetPriorityResult.okSet ty i p =>
    "Set " ++ ty ++ " #" ++ toString i ++ " priority to " ++ priorityLabel p ++
      " (" ++ numStr p ++ ")"
  | SetPriorityResult.notFound ty i =>
    "No " ++ ty ++ " found with ID " ++ toString i

/-- Stand-in for `JSON.stringify` of the export document; in v2.7.0 this code
path is unreachable because `export_memory` always throws (see
`export_memory`). -/
def serializeExport (d : ExportDoc) : String :=
  "JSON export for " ++ d.project

/-- The `clear_session` result texts. -/
def renderClearSession (res : ClearSessionResult) : String :=
  match res with
  | ClearSessionResult.clearedOne p w =>
    "Session cleared for " ++ p ++
      (if w = "" then "" else " (workspace: " ++ w ++ ")")
  | ClearSessionResult.noSession => "No session to clear"
  | ClearSessionResult.clearedAll p n =>
    "All sessions cleared for " ++ p ++ " (" ++ toString n ++ " session(s))"
  | ClearSessionResult.noSessions => "No sessions to clear"

/-! ### The request dispatcher

`server.setRequestHandler(CallToolRequestSchema, ...)`: one `switch` over the
tool name inside a `try`; the `catch` clause turns any thrown error into the
text `Error: ${message}`, and the `default` case returns `Unknown tool:
${name}`. -/

/-- The tool calls the claims quantify over (arguments as in each tool's
input schema; `unknown` stands for any name without a `switch` case). -/
inductive Request where
  | recall_decisions (project : String) (search category : Option String)
      (limit : Option Nat)
  | list_decisions (project : String) (limit : Option Nat)
  | find_solution (project err : String) (category : Option String)
  | recall_learnings (project : String) (search : Option String) (limit : Option Nat)
  | list_errors (project : String) (limit : Option Nat)
  | set_context (project key value : String)
  | save_session (project : String) (workspace : Option String) (task : String)
      (status notes : Option String)
  | get_session (project : String) (workspace : Option String)
  | clear_session (project : String) (workspace : Option String)
  | archive (ty : String) (id : Nat)
  | set_priority (ty : String) (id : Nat) (priority : Rat)
  | prune (project : String) (days : Option Nat)
  | export_memory (project : String) (include_archived : Bool)
  | unknown (name : String)
  deriving Repr, DecidableEq

/-- Every tool name that has a `case` in the v2.7.0 `switch` (the sync tools
answer even when Firestore is disabled). -/
def knownToolNames : List String :=
  ["remember_decision", "recall_decisions", "list_decisions", "remember_error",
   "find_solution", "set_context", "get_context", "remember_learning",
   "recall_learnings", "delete_context", "list_errors", "search_all",
   "save_session", "get_session", "clear_session", "memory_status",
   "load_comprehensive_memory", "archive", "set_priority", "prune",
   "export_memory", "import_memory", "memory_stats", "bulk_cleanup",
   "sync_to_cloud", "pull_from_cloud"]

/-- The `switch` body: each case runs its tool and renders the text;
exceptions (`Except.error`) propagate to the boundary. -/
def dispatchE (now : Nat) (req : Request) (s : State) :
    Except String (String × State) :=
  match req with
  | Request.recall_decisions project search category limit =>
    let (results, s2) := recall_decisions s now project search category limit
    Except.ok
      (if results.length > 0 then
        String.intercalate "\n\n" (results.map renderDecision)
       else "No decisions found for this project", s2)
  | Request.list_decisions project limit =>
    let results := list_decisions s project limit
    Except.ok
      (if results.length > 0 then
        String.intercalate "\n\n" (results.map renderDecisionListed)
       else "No decisions found for this project", s)
  | Request.find_solution project err category =>
    let (results, s2) := find_solution s now project err category
    Except.ok
      (if results.length > 0 then
        String.intercalate "\n\n---\n\n" (results.map renderSolution)
       else "No matching solutions found", s2)
  | Request.recall_learnings project search limit =>
    let (results, s2) := recall_learnings s now project search limit
    Except.ok
      (if results.length > 0 then
        String.intercalate "\n\n" (results.map renderLearning)
       else "No learnings found", s2)
  | Request.list_errors project limit =>
    let results := list_errors s project limit
    Except.ok
      (if results.length > 0 then
        String.intercalate "\n\n" (results.map renderErrorListed)
       else "No errors stored for this project", s)
  | Request.set_context project key value =>
    Except.ok ("Context " ++ key ++ " set for " ++ project,
      set_context s now project key value)
  | Request.save_session project workspace task status notes =>
    Except.ok ("Session saved for " ++ project ++
      (match strArg workspace with
       | some w => " (workspace: " ++ w ++ ")"
       | none => "") ++ ": " ++ task,
      save_session s now project workspace task status notes)
  | Request.get_session project workspace =>
    Except.ok
      (match get_session s project workspace with
       | GetSessionResult.one r => renderSessionOne now r
       | GetSessionResult.many rs =>
         String.intercalate "\n\n" (rs.map (renderSessionEntry now))
       | GetSessionResult.noneFound => "No saved session found", s)
  | Request.clear_session project workspace =>
    let (res, s2) := clear_session s project workspace
    Except.ok (renderClearSession res, s2)
  | Request.archive ty id =>
    let (res, s2) := archive s ty id
    Except.ok (renderArchive res, s2)
  | Request.set_priority ty id priority =>
    let (res, s2) := set_priority s ty id priority
    Except.ok (renderSetPriority res, s2)
  | Request.prune project days =>
    let (n, s2) := prune s now project days
    Except.ok ("Pruned " ++ toString n ++ " archived items older than " ++
      toString (jsNatOr days 90) ++ " days", s2)
  | Request.export_memory project include_archived =>
    match export_memory s project include_archived with
    | Except.ok doc => Except.ok (serializeExport doc, s)
    | Except.error e => Except.error e
  | Request.unknown name =>
    Except.ok ("Unknown tool: " ++ name, s)

/-- The outer boundary: the `try`/`catch` around the `switch` converts every
thrown error to the text `Error: ${message}`; a text result always comes
back. -/
def handleRequest (now : Nat) (req : Request) (s : State) : String × State :=
  match dispatchE now req s with
  | Except.ok out => out
  | Except.error e => ("Error: " ++ e, s)

/-! ### Specification-level predicates and concrete stores used by the
theorems below -/

/-- The `UNIQUE(project, key)` invariant of the `context` table. -/
def ctxWF (s : State) : Prop :=
  (s.contexts.map fun r => (r.project, r.key)).Nodup

/-- What two successive `set_context` calls on the same (project, key) must
leave behind: exactly one row for the key, carrying the second value and the
second timestamp; every other row, and every other table, untouched; the
uniqueness invariant preserved. -/
def ContextUpsertSpec (s : State) (now1 now2 : Nat) (P k v1 v2 : String) : Prop :=
  let s2 := set_context (set_context s now1 P k v1) now2 P k v2
  (s2.contexts.filter fun r => r.project == P && r.key == k) = [⟨P, k, v2, now2⟩]
  ∧ (s2.contexts.filter fun r => !(r.project == P && r.key == k)) =
      (s.contexts.filter fun r => !(r.project == P && r.key == k))
  ∧ ctxWF s2
  ∧ s2.decisions = s.decisions ∧ s2.errors = s.errors
  ∧ s2.learnings = s.learnings ∧ s2.sessions = s.sessions

/-- The record `last_accessed` lies within `bound` milliseconds of `now`. -/
def withinMs (la : Option Nat) (now bound : Nat) : Prop :=
  ∃ t, la = some t ∧ now - t ≤ bound

instance (la : Option Nat) (now bound : Nat) : Decidable (withinMs la now bound) :=
  match la with
  | none => isFalse (by simp [withinMs])
  | some t => decidable_of_iff (now - t ≤ bound) (by simp [withinMs])

/-- Ordering, scoping and archive-exclusion behaviour of `recall_decisions`:
the plain listing is sorted by priority desc then date desc; every returned
row (on every search/category path) belongs to the project and is
unarchived; after `archive("decision", i)` no path returns a row with id
`i`, and the recall's own access tracking keeps the row archived. -/
def RecallDecisionsSpec (s : State) (now : Nat) (P : String) (se ca : Option String)
    (li : Option Nat) (i : Nat) : Prop :=
  ((recall_decisions s now P none none li).1.Pairwise decOrd)
  ∧ (∀ r ∈ (recall_decisions s now P se ca li).1, r.project = P ∧ r.archived = false)
  ∧ (∀ r ∈ (recall_decisions (archive s "decision" i).2 now P se ca li).1, r.id ≠ i)
  ∧ (∀ r ∈ ((recall_decisions (archive s "decision" i).2 now P se ca li).2).decisions,
      r.id = i → r.archived = true)

/-- What access tracking must do to one decision row. -/
def TrackedDecision (now : Nat) (r w : Decision) : Prop :=
  w.id = r.id ∧ w.access_count = some (r.access_count.getD 0 + 1)
  ∧ w.last_accessed = some now
  ∧ w.project = r.project ∧ w.date = r.date ∧ w.decision = r.decision
  ∧ w.rationale = r.rationale ∧ w.category = r.category ∧ w.priority = r.priority
  ∧ w.archived = r.archived ∧ w.created_at = r.created_at

/-- What access tracking must do to one error row. -/
def TrackedError (now : Nat) (r w : ErrorRow) : Prop :=
  w.id = r.id ∧ w.access_count = some (r.access_count.getD 0 + 1)
  ∧ w.last_accessed = some now
  ∧ w.project = r.project ∧ w.error_pattern = r.error_pattern
  ∧ w.solution = r.solution ∧ w.context = r.context ∧ w.category = r.category
  ∧ w.priority = r.priority ∧ w.archived = r.archived ∧ w.created_at = r.created_at

/-- What access tracking must do to one learning row. -/
def TrackedLearning (now : Nat) (r w : Learning) : Prop :=
  w.id = r.id ∧ w.access_count = some (r.access_count.getD 0 + 1)
  ∧ w.last_accessed = some now
  ∧ w.project = r.project ∧ w.category = r.category ∧ w.content = r.content
  ∧ w.priority = r.priority ∧ w.archived = r.archived ∧ w.created_at = r.created_at

/-- Frame/effect of `recall_decisions`: each returned row's stored copy gets
exactly one access bump and a fresh `last_accessed` and nothing else; rows
not returned survive unchanged; the id multiset and the other four tables
are untouched. -/
def RecallTrackSpecD (s : State) (now : Nat) (P : String) (se ca : Option String)
    (li : Option Nat) : Prop :=
  let out := recall_decisions s now P se ca li
  (∀ r ∈ out.1, ∃ w ∈ out.2.decisions, TrackedDecision now r w)
  ∧ (∀ w ∈ s.decisions, w.id ∉ out.1.map Decision.id → w ∈ out.2.decisions)
  ∧ (out.2.decisions.map Decision.id = s.decisions.map Decision.id)
  ∧ out.2.errors = s.errors ∧ out.2.contexts = s.contexts
  ∧ out.2.learnings = s.learnings ∧ out.2.sessions = s.sessions

/-- Frame/effect of `find_solution` (see `RecallTrackSpecD`). -/
def RecallTrackSpecE (s : State) (now : Nat) (P err : String)
    (ca : Option String) : Prop :=
  let out := find_solution s now P err ca
  (∀ r ∈ out.1, ∃ w ∈ out.2.errors, TrackedError now r w)
  ∧ (∀ w ∈ s.errors, w.id ∉ out.1.map ErrorRow.id → w ∈ out.2.errors)
  ∧ (out.2.errors.map ErrorRow.id = s.errors.map ErrorRow.id)
  ∧ out.2.decisions = s.decisions ∧ out.2.contexts = s.contexts
  ∧ out.2.learnings = s.learnings ∧ out.2.sessions = s.sessions

/-- Frame/effect of `recall_learnings` (see `RecallTrackSpecD`). -/
def RecallTrackSpecL (s : State) (now : Nat) (P : String) (se : Option String)
    (li : Option Nat) : Prop :=
  let out := recall_learnings s now P se li
  (∀ r ∈ out.1, ∃ w ∈ out.2.learnings, TrackedLearning now r w)
  ∧ (∀ w ∈ s.learnings, w.id ∉ out.1.map Learning.id → w ∈ out.2.learnings)
  ∧ (out.2.learnings.map Learning.id = s.learnings.map Learning.id)
  ∧ out.2.decisions = s.decisions ∧ out.2.contexts = s.contexts
  ∧ out.2.errors = s.errors ∧ out.2.sessions = s.sessions

/-- What `prune(project, days)` must do for a resolved day count `d`:
delete exactly the archived rows of the scoped projects older than the
cutoff from the three archivable tables, leave context and sessions alone,
and report the total count. -/
def PruneBehaviour (s : State) (now : Nat) (project : String) (d : Nat) : Prop :=
  let cutoff := now - d * 86400000
  let out := prune s now project (some d)
  (∀ r : Decision, r ∈ out.2.decisions ↔ r ∈ s.decisions ∧
      ¬(r.archived = true ∧ r.created_at < cutoff ∧ (project = "all" ∨ r.project = project)))
  ∧ (∀ r : ErrorRow, r ∈ out.2.errors ↔ r ∈ s.errors ∧
      ¬(r.archived = true ∧ r.created_at < cutoff ∧ (project = "all" ∨ r.project = project)))
  ∧ (∀ r : Learning, r ∈ out.2.learnings ↔ r ∈ s.learnings ∧
      ¬(r.archived = true ∧ r.created_at < cutoff ∧
        (project = "all" ∨ r.project = some project)))
  ∧ out.2.contexts = s.contexts
  ∧ out.2.sessions = s.sessions
  ∧ out.1 =
      (s.decisions.filter fun r => decide (r.archived = true ∧ r.created_at < cutoff
        ∧ (project = "all" ∨ r.project = project))).length
      + (s.errors.filter fun r => decide (r.archived = true ∧ r.created_at < cutoff
        ∧ (project = "all" ∨ r.project = project))).length
      + (s.learnings.filter fun r => decide (r.archived = true ∧ r.created_at < cutoff
        ∧ (project = "all" ∨ r.project = some project))).length
  ∧ (handleRequest now (Request.prune project (some d)) s).1 =
      "Pruned " ++ toString out.1 ++ " archived items older than " ++ toString d ++ " days"

/-- A store with one normal-priority decision (id 1). -/
def oneDecisionState : State :=
  { emptyState with decisions :=
      [⟨1, "app", "2024-01-01", "Use SQLite", none, none, 0, false, none, none, 0⟩] }

/-- A store with one archived decision created at instant 0. -/
def oldArchivedState : State :=
  { emptyState with decisions :=
      [⟨1, "app", "2024-01-01", "old decision", none, none, 0, true, none, none, 0⟩] }

/-- A store with two live decisions of one project. -/
def twoDecisionState : State :=
  { emptyState with decisions :=
      [⟨1, "app", "2024-01-02", "Use SQLite", some "simplicity", none, 0, false, none, none, 5⟩,
       ⟨2, "app", "2024-01-01", "Use MCP", none, none, 1, false, none, none, 3⟩] }

/-- A store with sessions in two workspaces of one project. -/
def twoWorkspaceState : State :=
  { emptyState with sessions :=
      [⟨"app", some "w1", "T1", none, none, 1⟩,
       ⟨"app", some "w2", "T2", none, none, 2⟩] }

/-- A store with one row in each of the three tracked tables. -/
def trackedState : State :=
  { emptyState with
      decisions :=
        [⟨1, "app", "2024-01-01", "Use SQLite", none, none, 0, false, none, none, 0⟩],
      errors :=
        [⟨1, "app", "ECONNREFUSED", "start service", none, none, 0, false, none, none, 0⟩],
      learnings :=
        [⟨1, some "app", "gotcha", "remember this", 0, false, none, none, 0⟩] }

/-! ## Generic lemmas about id-keyed updates -/

section TrackLemmas

variable {α : Type} (gid : α → Nat) (upd : α → α)

theorem lookupId_updateById (hid : ∀ r, gid (upd r) = gid r) (i j : Nat)
    (rows : List α) :
    lookupId gid j (updateById gid upd i rows) =
      if i = j then (lookupId gid j rows).map upd else lookupId gid j rows := by
  induction rows with
  | nil => simp [lookupId, updateById, ite_self]
  | cons r t ih =>
    by_cases h2 : i = j
    · subst h2
      by_cases h1 : gid r = i
      · simp [updateById, lookupId, h1, hid, beq_iff_eq]
      · simp only [updateById, List.map_cons, lookupId, beq_iff_eq] at ih ⊢
        simp [h1, hid, ih]
    · by_cases h1 : gid r = i
      · by_cases h3 : gid r = j
        · exact absurd (h1 ▸ h3) h2
        · simp only [updateById, List.map_cons, lookupId, beq_iff_eq] at ih ⊢
          simp [h1, h3, h2, hid, ih]
      · by_cases h3 : gid r = j
        · have h2s : ¬ j = i := fun h => h2 h.symm
          simp [updateById, lookupId, h1, h3, h2, h2s, beq_iff_eq]
        · simp only [updateById, List.map_cons, lookupId, beq_iff_eq] at ih ⊢
          simp [h1, h3, h2, ih]

theorem map_gid_updateById (hid : ∀ r, gid (upd r) = gid r) (i : Nat)
    (rows : List α) :
    (updateById gid upd i rows).map gid = rows.map gid := by
  unfold updateById
  rw [List.map_map]
  refine List.map_congr_left ?_
  intro a _
  by_cases h : gid a = i
  · simp [Function.comp, h, hid, beq_iff_eq]
  · simp [Function.comp, h, beq_iff_eq]

theorem lookupId_trackFold_not (hid : ∀ r, gid (upd r) = gid r) (ids : List Nat)
    (j : Nat) (rows : List α) (hj : j ∉ ids) :
    lookupId gid j (trackFold gid upd ids rows) = lookupId gid j rows := by
  induction ids generalizing rows with
  | nil => rfl
  | cons i t ih =>
    have hji : i ≠ j := by
      intro h
      subst h
      exact hj (List.mem_cons_self i t)
    have hjt : j ∉ t := fun h => hj (List.mem_cons_of_mem i h)
    rw [show trackFold gid upd (i :: t) rows
        = trackFold gid upd t (updateById gid upd i rows) from rfl]
    rw [ih _ hjt, lookupId_updateById gid upd hid, if_neg hji]

theorem lookupId_trackFold_mem (hid : ∀ r, gid (upd r) = gid r) (ids : List Nat)
    (j : Nat) (rows : List α) (hnd : ids.Nodup) (hj : j ∈ ids) :
    lookupId gid j (trackFold gid upd ids rows) = (lookupId gid j rows).map upd := by
  induction ids generalizing rows with
  | nil => cases hj
  | cons i t ih =>
    rw [show trackFold gid upd (i :: t) rows
        = trackFold gid upd t (updateById gid upd i rows) from rfl]
    rcases List.mem_cons.mp hj with h | h
    · subst h
      rw [lookupId_trackFold_not gid upd hid t j _ (List.nodup_cons.mp hnd).1]
      rw [lookupId_updateById gid upd hid, if_pos rfl]
    · have hij : i ≠ j := by
        intro he
        exact (List.nodup_cons.mp hnd).1 (by rw [he]; exact h)
      rw [ih _ (List.nodup_cons.mp hnd).2 h, lookupId_updateById gid upd hid,
        if_neg hij]

theorem map_gid_trackFold (hid : ∀ r, gid (upd r) = gid r) (ids : List Nat)
    (rows : List α) :
    (trackFold gid upd ids rows).map gid = rows.map gid := by
  induction ids generalizing rows with
  | nil => rfl
  | cons i t ih =>
    rw [show trackFold gid upd (i :: t) rows
        = trackFold gid upd t (updateById gid upd i rows) from rfl]
    rw [ih, map_gid_updateById gid upd hid]

theorem lookupId_of_mem {rows : List α} {w : α} (hnd : (rows.map gid).Nodup)
    (hw : w ∈ rows) : lookupId gid (gid w) rows = some w := by
  induction rows with
  | nil => cases hw
  | cons r t ih =>
    rw [List.map_cons, List.nodup_cons] at hnd
    rcases List.mem_cons.mp hw with h | h
    · subst h
      simp [lookupId]
    · have hne : gid r ≠ gid w := by
        intro he
        exact hnd.1 (by rw [he]; exact List.mem_map_of_mem gid h)
      simp [lookupId, hne, beq_iff_eq, ih hnd.2 h]

theorem mem_of_lookupId {rows : List α} {j : Nat} {w : α}
    (h : lookupId gid j rows = some w) : w ∈ rows := by
  induction rows with
  | nil => cases h
  | cons r t ih =>
    by_cases h1 : gid r = j
    · simp [lookupId, h1, beq_iff_eq] at h
      rw [← h]
      exact List.mem_cons_self r t
    · simp [lookupId, h1, beq_iff_eq] at h
      exact List.mem_cons_of_mem r (ih h)

/-- The generic shape of one access-tracking pass: returned rows get exactly
one `upd`, rows with untracked ids survive unchanged, the id multiset is
untouched. -/
theorem trackFold_spec (hid : ∀ r, gid (upd r) = gid r)
    {rows results : List α}
    (hnodup : (rows.map gid).Nodup)
    (hresnodup : (results.map gid).Nodup)
    (hsub : ∀ r ∈ results, r ∈ rows) :
    (∀ r ∈ results, upd r ∈ trackFold gid upd (results.map gid) rows)
    ∧ (∀ w ∈ rows, gid w ∉ results.map gid →
        w ∈ trackFold gid upd (results.map gid) rows)
    ∧ (trackFold gid upd (results.map gid) rows).map gid = rows.map gid := by
  refine ⟨?_, ?_, map_gid_trackFold gid upd hid _ _⟩
  · intro r hr
    have h1 : lookupId gid (gid r) rows = some r :=
      lookupId_of_mem gid hnodup (hsub r hr)
    have h2 : lookupId gid (gid r) (trackFold gid upd (results.map gid) rows)
        = some (upd r) := by
      rw [lookupId_trackFold_mem gid upd hid _ _ _ hresnodup
        (List.mem_map_of_mem gid hr), h1]
      rfl
    exact mem_of_lookupId gid h2
  · intro w hw hnot
    have h1 : lookupId gid (gid w) rows = some w := lookupId_of_mem gid hnodup hw
    have h2 : lookupId gid (gid w) (trackFold gid upd (results.map gid) rows)
        = some w := by
      rw [lookupId_trackFold_not gid upd hid _ _ _ hnot, h1]
    exact mem_of_lookupId gid h2

end TrackLemmas

/-! ## Query-shape lemmas -/

theorem nodup_map_sorted {α : Type} (gid : α → Nat) (R : α → α → Prop)
    [DecidableRel R] (p : α → Bool) (l : List α) (h : (l.map gid).Nodup) :
    (((l.filter p).insertionSort R).map gid).Nodup := by
  have h1 : ((l.filter p).map gid).Nodup :=
    ((l.filter_sublist).map gid).nodup h
  exact (((l.filter p).perm_insertionSort R).map gid).nodup_iff.mpr h1

theorem nodup_map_take {α : Type} (gid : α → Nat) (l : List α) (n : Nat)
    (h : (l.map gid).Nodup) : ((l.take n).map gid).Nodup :=
  ((List.take_sublist n l).map gid).nodup h

theorem mem_sorted_filter_take {α : Type} {R : α → α → Prop} [DecidableRel R]
    {p : α → Bool} {l : List α} {n : Nat} {r : α}
    (hr : r ∈ ((l.filter p).insertionSort R).take n) :
    r ∈ l ∧ p r = true := by
  have h1 := List.mem_of_mem_take hr
  rw [List.mem_insertionSort] at h1
  exact List.mem_filter.mp h1

theorem mem_sorted_filter {α : Type} {R : α → α → Prop} [DecidableRel R]
    {p : α → Bool} {l : List α} {r : α}
    (hr : r ∈ (l.filter p).insertionSort R) :
    r ∈ l ∧ p r = true := by
  rw [List.mem_insertionSort] at hr
  exact List.mem_filter.mp hr

/-! ## Claim theorems -/

/-- C1: in the v2.7.0 revision `export_memory` always throws
`ReferenceError: getSession is not defined` (the prepared statement was
renamed by the workspace migration but the export case still references it),
so the tool returns the error text instead of a JSON document and the
export/import round-trip cannot even begin. -/
theorem C1_export_reference_error (s : State) (project : String)
    (includeArchived : Bool) (now : Nat) :
    export_memory s project includeArchived =
      Except.error "getSession is not defined"
    ∧ handleRequest now (Request.export_memory project includeArchived) s =
        ("Error: getSession is not defined", s) :=
  ⟨rfl, rfl⟩

/-- C3 counterexample: `set_priority("decision", 1, 3/2)` — the level 1.5 is
not in {0, 1, 2}, yet the call is accepted (no validation-failure result)
and the stored priority becomes 1.5. -/
theorem C3_counterexample :
    ¬((3 / 2 : Rat) = 0 ∨ (3 / 2 : Rat) = 1 ∨ (3 / 2 : Rat) = 2)
    ∧ (set_priority oneDecisionState "decision" 1 (3 / 2)).1 =
        SetPriorityResult.okSet "decision" 1 (3 / 2)
    ∧ (set_priority oneDecisionState "decision" 1 (3 / 2)).2.decisions.map
        Decision.priority = [3 / 2] := by
  refine ⟨by norm_num, ?_, ?_⟩
  · unfold set_priority
    rw [if_pos (Or.inl rfl), if_neg (by norm_num)]
    rfl
  · unfold set_priority
    rw [if_pos (Or.inl rfl), if_neg (by norm_num)]
    rfl

/-- C3 (amended): for the kinds decision, error and learning, every level
outside the interval [0, 2] is rejected with the invalid-priority result and
the store is left unchanged; the check is the range test `level < 0 ||
level > 2`, so non-integer levels inside the interval are accepted. -/
theorem C3_priority_range_validation (s : State) (ty : String) (id : Nat)
    (level : Rat)
    (hty : ty = "decision" ∨ ty = "error" ∨ ty = "learning")
    (hlevel : level < 0 ∨ 2 < level) :
    (set_priority s ty id level).1 = SetPriorityResult.invalidPriority level
    ∧ (set_priority s ty id level).2 = s := by
  unfold set_priority
  rw [if_pos hty, if_pos hlevel]
  exact ⟨rfl, rfl⟩

theorem C3_priority_range_validation_witness :
    (("decision" : String) = "decision" ∨ ("decision" : String) = "error"
      ∨ ("decision" : String) = "learning")
    ∧ ((3 : Rat) < 0 ∨ (2 : Rat) < 3)
    ∧ (set_priority oneDecisionState "decision" 1 3).1 =
        SetPriorityResult.invalidPriority 3
    ∧ (set_priority oneDecisionState "decision" 1 3).2 = oneDecisionState :=
  ⟨Or.inl rfl, Or.inr (by norm_num),
    (C3_priority_range_validation oneDecisionState "decision" 1 3 (Or.inl rfl)
      (Or.inr (by norm_num))).1,
    (C3_priority_range_validation oneDecisionState "decision" 1 3 (Or.inl rfl)
      (Or.inr (by norm_num))).2⟩

/-- C6: `UNIQUE(project, workspace)` treats NULL workspaces as pairwise
distinct, so the `ON CONFLICT` upsert never fires for the default workspace:
two `save_session("app", task)` calls without a workspace leave two rows for
("app", NULL) — the second call does not overwrite the first. -/
theorem C6_null_workspace_duplicates :
    ((save_session (save_session emptyState 1 "app" none "T1" none none) 2 "app"
        none "T2" none none).sessions.filter fun r =>
          r.project == "app" && r.workspace == none).length = 2
    ∧ (save_session (save_session emptyState 1 "app" none "T1" none none) 2 "app"
        none "T2" none none).sessions.map SessionRow.task = ["T1", "T2"] := by
  exact ⟨by decide, by decide⟩

/-- C9: the boundary `try`/`catch` turns every thrown error into the text
`Error: message` and otherwise passes the case's text through, so a text
result always crosses the interface; a name with no `switch` case gets the
`Unknown tool` text, not a failure. -/
theorem C9_boundary_catches_all :
    (∀ (now : Nat) (req : Request) (s : State),
      (∃ t s2, dispatchE now req s = Except.ok (t, s2)
        ∧ handleRequest now req s = (t, s2))
      ∨ (∃ e, dispatchE now req s = Except.error e
        ∧ handleRequest now req s = ("Error: " ++ e, s)))
    ∧ (∀ (now : Nat) (name : String) (s : State), name ∉ knownToolNames →
        handleRequest now (Request.unknown name) s =
          ("Unknown tool: " ++ name, s)) := by
  constructor
  · intro now req s
    cases h : dispatchE now req s with
    | ok out =>
      obtain ⟨t, s2⟩ := out
      exact Or.inl ⟨t, s2, rfl, by unfold handleRequest; rw [h]⟩
    | error e =>
      exact Or.inr ⟨e, rfl, by unfold handleRequest; rw [h]⟩
  · intro now name s _
    rfl

theorem C9_boundary_catches_all_witness :
    ("frobnicate" ∉ knownToolNames)
    ∧ handleRequest 0 (Request.unknown "frobnicate") emptyState =
        ("Unknown tool: frobnicate", emptyState) :=
  ⟨by decide, C9_boundary_catches_all.2 0 "frobnicate" emptyState (by decide)⟩

/-- C10: `clear_session(P)` with no workspace deletes every session row of
project P (all workspaces, the NULL default included) and reports how many,
or answers `No sessions to clear` when P has none; the explicit-workspace
form removes exactly the rows of that one workspace. -/
theorem C10_clear_session (s : State) (project w : String) (now : Nat) :
    ((clear_session s project none).2.sessions =
        s.sessions.filter fun r => !(r.project == project))
    ∧ ((clear_session s project none).1 =
        if 0 < (s.sessions.filter fun r => r.project == project).length then
          ClearSessionResult.clearedAll project
            (s.sessions.filter fun r => r.project == project).length
        else ClearSessionResult.noSessions)
    ∧ ((handleRequest now (Request.clear_session project none) s).1 =
        if 0 < (s.sessions.filter fun r => r.project == project).length then
          "All sessions cleared for " ++ project ++ " (" ++
            toString (s.sessions.filter fun r => r.project == project).length ++
            " session(s))"
        else "No sessions to clear")
    ∧ ((clear_session s project (some w)).2.sessions =
        s.sessions.filter fun r => !sessionKeyMatch project (some w) r)
    ∧ (∀ r ∈ s.sessions, r.project = project → r.workspace ≠ some w →
        r ∈ (clear_session s project (some w)).2.sessions) := by
  have h2 : (clear_session s project none).1 =
      if 0 < (s.sessions.filter fun r => r.project == project).length then
        ClearSessionResult.clearedAll project
          (s.sessions.filter fun r => r.project == project).length
      else ClearSessionResult.noSessions := by
    simp only [clear_session, List.countP_eq_length_filter, gt_iff_lt]
  refine ⟨rfl, h2, ?_, rfl, ?_⟩
  · have h3 : (handleRequest now (Request.clear_session project none) s).1 =
        renderClearSession (clear_session s project none).1 := rfl
    rw [h3, h2]
    by_cases hn : 0 < (s.sessions.filter fun r => r.project == project).length
    · simp [renderClearSession, hn]
    · simp [renderClearSession, hn]
  · intro r hr hp hw
    simp only [clear_session, List.mem_filter]
    refine ⟨hr, ?_⟩
    simp [sessionKeyMatch, hp, hw, beq_iff_eq]

/-! ## Tier classification -/

theorem ratDays_le (a L : Nat) :
    ((a : Rat) / (1000 * 60 * 60 * 24) ≤ (L : Rat)) ↔ a ≤ L * 86400000 := by
  rw [div_le_iff₀ (by norm_num : (0 : Rat) < 1000 * 60 * 60 * 24)]
  rw [show ((1000 : Rat) * 60 * 60 * 24) = ((86400000 : Nat) : Rat) by norm_num]
  rw [← Nat.cast_mul, Nat.cast_le]

/-- `getTier` in terms of the spec's day-window predicates. -/
theorem getTier_eq (ac la : Option Nat) (now : Nat) :
    getTier ac la now =
      if 5 ≤ ac.getD 0 ∨ withinMs la now (7 * 86400000) then "hot"
      else if 2 ≤ ac.getD 0 ∨ withinMs la now (30 * 86400000) then "warm"
      else "cold" := by
  cases la with
  | none =>
    by_cases h5 : 5 ≤ ac.getD 0
    · simp [getTier, withinMs, h5]
    · by_cases h2 : 2 ≤ ac.getD 0
      · simp [getTier, withinMs, h5, h2]
      · simp [getTier, withinMs, h5, h2]
  | some t =>
    have h7 : (((now - t : Nat) : Rat) / (1000 * 60 * 60 * 24) ≤ 7)
        ↔ (now - t ≤ 7 * 86400000) := by
      have h := ratDays_le (now - t) 7
      rwa [Nat.cast_ofNat] at h
    have h30 : (((now - t : Nat) : Rat) / (1000 * 60 * 60 * 24) ≤ 30)
        ↔ (now - t ≤ 30 * 86400000) := by
      have h := ratDays_le (now - t) 30
      rwa [Nat.cast_ofNat] at h
    by_cases h5 : 5 ≤ ac.getD 0
    · simp [getTier, withinMs, h5]
    · by_cases hb7 : now - t ≤ 7 * 86400000
      · simp [getTier, withinMs, h5, h7, hb7]
        rw [if_pos (by omega)]
      · by_cases h2 : 2 ≤ ac.getD 0
        · simp [getTier, withinMs, h5, h7, hb7, h2]
          rw [if_neg (by omega)]
        · by_cases hb30 : now - t ≤ 30 * 86400000
          · simp [getTier, withinMs, h5, h7, h30, hb7, h2, hb30]
            rw [if_neg (by omega), if_pos (by omega)]
          · simp [getTier, withinMs, h5, h7, h30, hb7, h2, hb30]
            rw [if_neg (by omega), if_neg (by omega)]

/-- C4: a record is hot iff `access_count ≥ 5` or it was accessed within 7
days of now, else warm iff `access_count ≥ 2` or accessed within 30 days,
else cold (a null count counts as 0, a null `last_accessed` as never); in
particular count 5 at 40 days is hot, count 0 at 3 days is hot, and count 1
at 10 days is warm. -/
theorem C4_tier_classification :
    (∀ (ac la : Option Nat) (now : Nat),
      (getTier ac la now = "hot" ↔
        5 ≤ ac.getD 0 ∨ withinMs la now (7 * 86400000))
      ∧ (getTier ac la now = "warm" ↔
          ¬(5 ≤ ac.getD 0 ∨ withinMs la now (7 * 86400000))
          ∧ (2 ≤ ac.getD 0 ∨ withinMs la now (30 * 86400000)))
      ∧ (getTier ac la now = "cold" ↔
          ¬(5 ≤ ac.getD 0 ∨ withinMs la now (7 * 86400000))
          ∧ ¬(2 ≤ ac.getD 0 ∨ withinMs la now (30 * 86400000))))
    ∧ getTier (some 5) (some (60 * 86400000)) (100 * 86400000) = "hot"
    ∧ getTier (some 0) (some (97 * 86400000)) (100 * 86400000) = "hot"
    ∧ getTier (some 1) (some (90 * 86400000)) (100 * 86400000) = "warm" := by
  refine ⟨?_, ?_, ?_, ?_⟩
  · intro ac la now
    rw [getTier_eq]
    by_cases h1 : 5 ≤ ac.getD 0 ∨ withinMs la now (7 * 86400000)
    · simp [h1]
    · by_cases h2 : 2 ≤ ac.getD 0 ∨ withinMs la now (30 * 86400000)
      · simp [h1, h2]
      · simp [h1, h2]
  · rw [getTier_eq, if_pos (Or.inl (by norm_num))]
  · rw [getTier_eq,
      if_pos (Or.inr ⟨97 * 86400000, rfl, by norm_num⟩)]
  · have h1 : ¬(5 ≤ (some 1 : Option Nat).getD 0
        ∨ withinMs (some (90 * 86400000)) (100 * 86400000) (7 * 86400000)) := by
      rintro (h | ⟨t2, ht, hle⟩)
      · simp at h
      · cases ht
        norm_num at hle
    have h2 : 2 ≤ (some 1 : Option Nat).getD 0
        ∨ withinMs (some (90 * 86400000)) (100 * 86400000) (30 * 86400000) :=
      Or.inr ⟨90 * 86400000, rfl, by norm_num⟩
    rw [getTier_eq, if_neg h1, if_pos h2]

/-! ## Context upsert -/

theorem filter_key_unique {P k : String} {l : List ContextRow}
    (h : (l.map fun r => (r.project, r.key)).Nodup)
    {r0 : ContextRow} (h0 : r0 ∈ l) (hp : r0.project = P) (hk : r0.key = k) :
    l.filter (fun r => r.project == P && r.key == k) = [r0] := by
  induction l with
  | nil => cases h0
  | cons r t ih =>
    rw [List.map_cons, List.nodup_cons] at h
    rcases List.mem_cons.mp h0 with he | ht
    · subst he
      have htail : t.filter (fun r => r.project == P && r.key == k) = [] := by
        rw [List.filter_eq_nil_iff]
        intro a ha hpa
        simp only [Bool.and_eq_true, beq_iff_eq] at hpa
        apply h.1
        have hpair : (r0.project, r0.key) = (a.project, a.key) := by
          rw [hpa.1, hpa.2, hp, hk]
        rw [hpair]
        exact List.mem_map_of_mem _ ha
      have hhead : ((fun r : ContextRow => r.project == P && r.key == k) r0) = true := by
        simp [beq_iff_eq, hp, hk]
      rw [@List.filter_cons_of_pos ContextRow
        (fun r => r.project == P && r.key == k) r0 t hhead, htail]
    · have hhead : ¬((fun r : ContextRow => r.project == P && r.key == k) r) = true := by
        intro hc
        simp only [Bool.and_eq_true, beq_iff_eq] at hc
        apply h.1
        have hpair : (r.project, r.key) = (r0.project, r0.key) := by
          rw [hc.1, hc.2, hp, hk]
        rw [hpair]
        exact List.mem_map_of_mem _ ht
      rw [@List.filter_cons_of_neg ContextRow
        (fun r => r.project == P && r.key == k) r t hhead]
      exact ih h.2 ht

theorem upsertContextList_spec (now : Nat) (P k v : String) (l : List ContextRow)
    (h : (l.map fun r => (r.project, r.key)).Nodup) :
    ((upsertContextList now P k v l).filter fun r => r.project == P && r.key == k)
        = [⟨P, k, v, now⟩]
    ∧ ((upsertContextList now P k v l).filter fun r =>
        !(r.project == P && r.key == k))
        = (l.filter fun r => !(r.project == P && r.key == k))
    ∧ ((upsertContextList now P k v l).map fun r => (r.project, r.key)).Nodup := by
  unfold upsertContextList
  by_cases hany : (l.any fun r => r.project == P && r.key == k) = true
  · rw [if_pos hany]
    obtain ⟨r0, hr0, hp0⟩ := List.any_eq_true.mp hany
    simp only [Bool.and_eq_true, beq_iff_eq] at hp0
    have hpredf : ∀ r : ContextRow,
        (((if r.project == P && r.key == k then
            { r with value := v, updated_at := now } else r).project == P
          && (if r.project == P && r.key == k then
            { r with value := v, updated_at := now } else r).key == k))
        = (r.project == P && r.key == k) := by
      intro r
      by_cases hr : (r.project == P && r.key == k) = true
      · rw [if_pos hr]
      · rw [if_neg hr]
    have hpairf : ∀ r : ContextRow,
        ((if r.project == P && r.key == k then
            { r with value := v, updated_at := now } else r).project,
         (if r.project == P && r.key == k then
            { r with value := v, updated_at := now } else r).key)
        = (r.project, r.key) := by
      intro r
      by_cases hr : (r.project == P && r.key == k) = true
      · rw [if_pos hr]
      · rw [if_neg hr]
    refine ⟨?_, ?_, ?_⟩
    · rw [List.filter_map]
      rw [List.filter_congr (fun a _ => by simpa using hpredf a)]
      rw [filter_key_unique h hr0 hp0.1 hp0.2]
      simp only [List.map_cons, List.map_nil]
      rw [if_pos (by simp [beq_iff_eq, hp0.1, hp0.2])]
      simp [hp0.1, hp0.2]
    · rw [List.filter_map]
      rw [List.filter_congr (fun a _ => by
        simp only [Function.comp]
        rw [hpredf a])]
      have hcong : List.map (fun r : ContextRow =>
          if r.project == P && r.key == k then
            { r with value := v, updated_at := now } else r)
          (l.filter fun a => !(a.project == P && a.key == k))
          = List.map (fun r => r)
            (l.filter fun a => !(a.project == P && a.key == k)) :=
        List.map_congr_left (fun a ha => by
          have hb : (a.project == P && a.key == k) = false := by
            have h2 := (List.mem_filter.mp ha).2
            revert h2
            cases a.project == P && a.key == k <;> simp
          rw [if_neg (by simp [hb])])
      rw [hcong, List.map_id']
    · rw [List.map_map]
      have hmap : (l.map fun r =>
          ((if r.project == P && r.key == k then
              { r with value := v, updated_at := now } else r).project,
           (if r.project == P && r.key == k then
              { r with value := v, updated_at := now } else r).key))
          = l.map fun r => (r.project, r.key) :=
        List.map_congr_left fun a _ => hpairf a
      exact hmap ▸ h
  · rw [if_neg hany]
    have hnone : ∀ a ∈ l, ¬(a.project == P && a.key == k) = true := by
      intro a ha hc
      exact hany (List.any_eq_true.mpr ⟨a, ha, hc⟩)
    refine ⟨?_, ?_, ?_⟩
    · rw [List.filter_append, List.filter_eq_nil_iff.mpr hnone]
      simp [beq_iff_eq]
    · rw [List.filter_append]
      have : ([(⟨P, k, v, now⟩ : ContextRow)].filter fun r =>
          !(r.project == P && r.key == k)) = [] := by
        simp [beq_iff_eq]
      rw [this, List.append_nil]
    · rw [List.map_append]
      refine List.Nodup.append h (by simp) ?_
      intro a ha hb
      simp only [List.map_cons, List.map_nil, List.mem_singleton] at hb
      obtain ⟨a0, ha0, hpa⟩ := List.mem_map.mp ha
      subst hb
      apply hnone a0 ha0
      have h1 : a0.project = P := congrArg Prod.fst hpa
      have h2 : a0.key = k := congrArg Prod.snd hpa
      simp [beq_iff_eq, h1, h2]

/-- C5: a second `set_context` on the same (project, key) overwrites rather
than errors: afterwards exactly one context row exists for the pair, holding
the second value with a refreshed `updated_at`; all other rows and tables
are untouched and the uniqueness invariant is preserved. -/
theorem C5_context_upsert (s : State) (now1 now2 : Nat) (P k v1 v2 : String)
    (h : ctxWF s) : ContextUpsertSpec s now1 now2 P k v1 v2 := by
  have h1 := upsertContextList_spec now1 P k v1 s.contexts h
  have h2 := upsertContextList_spec now2 P k v2
    (upsertContextList now1 P k v1 s.contexts) h1.2.2
  exact ⟨h2.1, by rw [show (set_context (set_context s now1 P k v1) now2 P k v2).contexts
      = upsertContextList now2 P k v2 (upsertContextList now1 P k v1 s.contexts)
      from rfl, h2.2.1, h1.2.1],
    h2.2.2, rfl, rfl, rfl, rfl⟩

theorem C5_context_upsert_witness :
    ctxWF emptyState ∧ ContextUpsertSpec emptyState 1 2 "app" "k" "v1" "v2" :=
  ⟨by simp [ctxWF, emptyState],
   C5_context_upsert emptyState 1 2 "app" "k" "v1" "v2"
     (by simp [ctxWF, emptyState])⟩

/-! ## Prune -/

theorem jsNatOr_pos (d dflt : Nat) (hd : 1 ≤ d) : jsNatOr (some d) dflt = d := by
  cases d with
  | zero => omega
  | succ n => rfl

theorem bool_not_iff (b : Bool) (p : Prop) (h : b = true ↔ p) :
    ((!b) = true ↔ ¬p) := by
  cases b <;> simp_all

theorem bool_eq_decide (b : Bool) (p : Prop) [Decidable p] (h : b = true ↔ p) :
    b = decide p := by
  cases b <;> simp_all

/-- C8 (amended): for every positive day count `d`, `prune(P, d)` deletes
exactly the archived rows older than `now - d` days in the scoped projects
from the three archivable tables, touches no context or session row, and the
returned text reports the total deleted count.  (A day count of 0 is falsy
in `args.days || 90` and falls back to the 90-day default, hence `1 ≤ d`.) -/
theorem C8_prune (s : State) (now : Nat) (project : String) (d : Nat)
    (hd : 1 ≤ d) : PruneBehaviour s now project d := by
  have hjs : jsNatOr (some d) 90 = d := jsNatOr_pos d 90 hd
  have hout : prune s now project (some d) =
      (s.decisions.countP (fun r => r.archived
          && decide (r.created_at < now - d * 86400000)
          && (project == "all" || r.project == project))
        + s.errors.countP (fun r => r.archived
          && decide (r.created_at < now - d * 86400000)
          && (project == "all" || r.project == project))
        + s.learnings.countP (fun r => r.archived
          && decide (r.created_at < now - d * 86400000)
          && (project == "all" || r.project == some project)),
       { s with
          decisions := s.decisions.filter fun r => !(r.archived
            && decide (r.created_at < now - d * 86400000)
            && (project == "all" || r.project == project)),
          errors := s.errors.filter fun r => !(r.archived
            && decide (r.created_at < now - d * 86400000)
            && (project == "all" || r.project == project)),
          learnings := s.learnings.filter fun r => !(r.archived
            && decide (r.created_at < now - d * 86400000)
            && (project == "all" || r.project == some project)) }) := by
    simp only [prune, hjs]
  have htext : (handleRequest now (Request.prune project (some d)) s).1
      = "Pruned " ++ toString (prune s now project (some d)).1 ++
        " archived items older than " ++ toString (jsNatOr (some d) 90) ++
        " days" := rfl
  unfold PruneBehaviour
  refine ⟨?_, ?_, ?_, ?_, ?_, ?_, ?_⟩
  · intro r
    rw [hout]
    simp only [List.mem_filter]
    exact and_congr_right fun _ => bool_not_iff _ _ (by
      simp [Bool.and_eq_true, decide_eq_true_eq, Bool.or_eq_true, beq_iff_eq,
        and_assoc])
  · intro r
    rw [hout]
    simp only [List.mem_filter]
    exact and_congr_right fun _ => bool_not_iff _ _ (by
      simp [Bool.and_eq_true, decide_eq_true_eq, Bool.or_eq_true, beq_iff_eq,
        and_assoc])
  · intro r
    rw [hout]
    simp only [List.mem_filter]
    exact and_congr_right fun _ => bool_not_iff _ _ (by
      simp [Bool.and_eq_true, decide_eq_true_eq, Bool.or_eq_true, beq_iff_eq,
        and_assoc])
  · rw [hout]
  · rw [hout]
  · rw [hout]
    simp only [List.countP_eq_length_filter]
    have hc1 : List.filter (fun r : Decision => r.archived
          && decide (r.created_at < now - d * 86400000)
          && (project == "all" || r.project == project)) s.decisions
        = List.filter (fun r : Decision => decide (r.archived = true
          ∧ r.created_at < now - d * 86400000
          ∧ (project = "all" ∨ r.project = project))) s.decisions :=
      List.filter_congr (fun r _ => bool_eq_decide _ _
        (by simp [Bool.and_eq_true, decide_eq_true_eq, Bool.or_eq_true,
          beq_iff_eq, and_assoc]))
    have hc2 : List.filter (fun r : ErrorRow => r.archived
          && decide (r.created_at < now - d * 86400000)
          && (project == "all" || r.project == project)) s.errors
        = List.filter (fun r : ErrorRow => decide (r.archived = true
          ∧ r.created_at < now - d * 86400000
          ∧ (project = "all" ∨ r.project = project))) s.errors :=
      List.filter_congr (fun r _ => bool_eq_decide _ _
        (by simp [Bool.and_eq_true, decide_eq_true_eq, Bool.or_eq_true,
          beq_iff_eq, and_assoc]))
    have hc3 : List.filter (fun r : Learning => r.archived
          && decide (r.created_at < now - d * 86400000)
          && (project == "all" || r.project == some project)) s.learnings
        = List.filter (fun r : Learning => decide (r.archived = true
          ∧ r.created_at < now - d * 86400000
          ∧ (project = "all" ∨ r.project = some project))) s.learnings :=
      List.filter_congr (fun r _ => bool_eq_decide _ _
        (by simp [Bool.and_eq_true, decide_eq_true_eq, Bool.or_eq_true,
          beq_iff_eq, and_assoc]))
    rw [hc1, hc2, hc3]
  · rw [htext, hjs, hout]

theorem C8_prune_witness :
    1 ≤ 90 ∧ PruneBehaviour oldArchivedState (100 * 86400000) "app" 90 :=
  ⟨by norm_num,
   C8_prune oldArchivedState (100 * 86400000) "app" 90 (by norm_num)⟩

/-- C8 counterexample: for day count d = 0 the claim demands that an
archived 50-day-old row of the project be deleted (it is older than
`now - 0` days), but `args.days || 90` treats 0 as absent and uses the
90-day default: the row survives and the reported count is 0. -/
theorem C8_counterexample :
    (∃ r ∈ oldArchivedState.decisions,
      r.archived = true ∧ r.created_at < 50 * 86400000 - 0 * 86400000
        ∧ r.project = "app")
    ∧ prune oldArchivedState (50 * 86400000) "app" (some 0)
        = (0, oldArchivedState) := by
  constructor
  · exact ⟨_, List.mem_cons_self _ _, rfl, by norm_num, rfl⟩
  · rfl

/-! ## Recall / archive behaviour of decisions -/

theorem recall_decisions_rows_mem (s : State) (now : Nat) (P : String)
    (se ca : Option String) (li : Option Nat) {r : Decision}
    (hr : r ∈ (recall_decisions s now P se ca li).1) :
    r ∈ s.decisions ∧ r.project = P ∧ r.archived = false := by
  have hr2 : r ∈ (match strArg ca with
    | some c => getDecisionsByCategory s P c (jsNatOr li 10)
    | none =>
      match strArg se with
      | some q => searchDecisions s P q
      | none => getDecisions s P (jsNatOr li 10)) := hr
  rcases hca : strArg ca with _ | c
  · rcases hse : strArg se with _ | q
    · rw [hca, hse] at hr2
      obtain ⟨hmem, hpred⟩ := mem_sorted_filter_take hr2
      simp only [Bool.and_eq_true, beq_iff_eq, Bool.not_eq_true'] at hpred
      exact ⟨hmem, hpred.1, hpred.2⟩
    · rw [hca, hse] at hr2
      obtain ⟨hmem, hpred⟩ := mem_sorted_filter hr2
      simp only [Bool.and_eq_true, beq_iff_eq, Bool.not_eq_true'] at hpred
      exact ⟨hmem, hpred.1.1, hpred.1.2⟩
  · rw [hca] at hr2
    obtain ⟨hmem, hpred⟩ := mem_sorted_filter_take hr2
    simp only [Bool.and_eq_true, beq_iff_eq, Bool.not_eq_true'] at hpred
    exact ⟨hmem, hpred.1.1, hpred.2⟩

theorem archive_decision_marks (s : State) (i : Nat) :
    ∀ r ∈ (archive s "decision" i).2.decisions, r.id = i → r.archived = true := by
  intro r hr hid
  have hr2 : r ∈ s.decisions.map fun r0 =>
      if r0.id == i then { r0 with archived := true } else r0 := hr
  obtain ⟨r0, hr0, heq⟩ := List.mem_map.mp hr2
  by_cases h : (r0.id == i) = true
  · rw [if_pos h] at heq
    rw [← heq]
  · rw [if_neg h] at heq
    subst heq
    exact absurd (beq_iff_eq.mpr hid) h

theorem trackFold_pred {α : Type} (gid : α → Nat) (upd : α → α) (Q : α → Prop)
    (hupd : ∀ r, Q r → Q (upd r)) (ids : List Nat) (rows : List α)
    (h : ∀ r ∈ rows, Q r) : ∀ r ∈ trackFold gid upd ids rows, Q r := by
  induction ids generalizing rows with
  | nil => exact h
  | cons i t ih =>
    rw [show trackFold gid upd (i :: t) rows
        = trackFold gid upd t (updateById gid upd i rows) from rfl]
    refine ih _ ?_
    intro w hw
    simp only [updateById] at hw
    obtain ⟨w0, hw0, heq⟩ := List.mem_map.mp hw
    by_cases hc : (gid w0 == i) = true
    · rw [if_pos hc] at heq
      exact heq ▸ hupd w0 (h w0 hw0)
    · rw [if_neg hc] at heq
      exact heq ▸ h w0 hw0

/-- C2: the plain `recall_decisions(P)` listing is sorted by priority desc
then date desc; on every path (search, category, plain) the returned rows
are P's unarchived decisions; after `archive("decision", i)` no path ever
returns a row with id `i` again (the recall's own tracking keeps the row
archived); and when the limit covers all of P's live decisions the plain
listing returns exactly them. -/
theorem C2_recall_archive (s : State) (now : Nat) (P : String)
    (se ca : Option String) (li : Option Nat) (i k : Nat)
    (hk : (s.decisions.filter fun d => d.project == P && !d.archived).length ≤ k) :
    RecallDecisionsSpec s now P se ca li i
    ∧ (recall_decisions s now P none none (some k)).1.Perm
        (s.decisions.filter fun d => d.project == P && !d.archived) := by
  constructor
  · refine ⟨?_, ?_, ?_, ?_⟩
    · have hsorted : ((s.decisions.filter fun d =>
          d.project == P && !d.archived).insertionSort decOrd).Pairwise decOrd :=
        List.sorted_insertionSort decOrd _
      exact List.Pairwise.sublist (List.take_sublist _ _) hsorted
    · intro r hr
      exact (recall_decisions_rows_mem s now P se ca li hr).2
    · intro r hr hEq
      have h1 := recall_decisions_rows_mem _ now P se ca li hr
      have h2 := archive_decision_marks s i r h1.1 hEq
      simp [h1.2.2] at h2
    · intro r hr
      refine trackFold_pred Decision.id (trackDecisionAccess now)
        (fun r => r.id = i → r.archived = true) ?_ _ _
        (archive_decision_marks s i) r hr
      intro r0 hq hid
      exact hq hid
  · have hperm := (s.decisions.filter fun d =>
      d.project == P && !d.archived).perm_insertionSort decOrd
    by_cases hk0 : k = 0
    · subst hk0
      have hnil : (s.decisions.filter fun d => d.project == P && !d.archived)
          = [] := List.length_eq_zero.mp (Nat.le_zero.mp hk)
      show (((s.decisions.filter fun d =>
          d.project == P && !d.archived).insertionSort decOrd).take
        (jsNatOr (some 0) 10)).Perm
          (s.decisions.filter fun d => d.project == P && !d.archived)
      rw [hnil]
      exact List.Perm.refl _
    · have hkpos : jsNatOr (some k) 10 = k :=
        jsNatOr_pos k 10 (Nat.one_le_iff_ne_zero.mpr hk0)
      show (((s.decisions.filter fun d =>
          d.project == P && !d.archived).insertionSort decOrd).take
        (jsNatOr (some k) 10)).Perm
          (s.decisions.filter fun d => d.project == P && !d.archived)
      rw [hkpos, List.take_of_length_le (by rw [hperm.length_eq]; exact hk)]
      exact hperm

theorem C2_recall_archive_witness :
    ((twoDecisionState.decisions.filter fun d =>
        d.project == "app" && !d.archived).length ≤ 5)
    ∧ (RecallDecisionsSpec twoDecisionState 0 "app" none none none 1
      ∧ (recall_decisions twoDecisionState 0 "app" none none (some 5)).1.Perm
          (twoDecisionState.decisions.filter fun d =>
            d.project == "app" && !d.archived)) :=
  ⟨by decide,
   C2_recall_archive twoDecisionState 0 "app" none none none 1 5 (by decide)⟩

/-! ## Access tracking of the three recall-style reads -/

theorem recall_decisions_ids_nodup (s : State) (now : Nat) (P : String)
    (se ca : Option String) (li : Option Nat)
    (hD : (s.decisions.map Decision.id).Nodup) :
    ((recall_decisions s now P se ca li).1.map Decision.id).Nodup := by
  have h : ∀ (p : Decision → Bool) (n : Nat),
      ((((s.decisions.filter p).insertionSort decOrd).take n).map
        Decision.id).Nodup :=
    fun p n => nodup_map_take _ _ _
      (nodup_map_sorted Decision.id decOrd p s.decisions hD)
  have hs : ∀ (p : Decision → Bool),
      (((s.decisions.filter p).insertionSort decOrd).map Decision.id).Nodup :=
    fun p => nodup_map_sorted Decision.id decOrd p s.decisions hD
  show ((match strArg ca with
    | some c => getDecisionsByCategory s P c (jsNatOr li 10)
    | none =>
      match strArg se with
      | some q => searchDecisions s P q
      | none => getDecisions s P (jsNatOr li 10)).map Decision.id).Nodup
  rcases strArg ca with _ | c
  · rcases strArg se with _ | q
    · exact h _ _
    · exact hs _
  · exact h _ _

theorem recallTrackSpecD_holds (s : State) (now : Nat) (P : String)
    (se ca : Option String) (li : Option Nat)
    (hD : (s.decisions.map Decision.id).Nodup) :
    RecallTrackSpecD s now P se ca li := by
  have hid : ∀ r : Decision, (trackDecisionAccess now r).id = r.id := fun r => rfl
  have hsub : ∀ r ∈ (recall_decisions s now P se ca li).1, r ∈ s.decisions :=
    fun r hr => (recall_decisions_rows_mem s now P se ca li hr).1
  have hres := recall_decisions_ids_nodup s now P se ca li hD
  have hmain := trackFold_spec Decision.id (trackDecisionAccess now) hid hD hres hsub
  refine ⟨?_, ?_, ?_, rfl, rfl, rfl, rfl⟩
  · intro r hr
    refine ⟨trackDecisionAccess now r, hmain.1 r hr, ?_⟩
    simp [trackDecisionAccess, TrackedDecision]
  · exact hmain.2.1
  · exact hmain.2.2

theorem find_solution_rows_mem (s : State) (now : Nat) (P err : String)
    (ca : Option String) {r : ErrorRow}
    (hr : r ∈ (find_solution s now P err ca).1) : r ∈ s.errors := by
  have hr2 : r ∈ (match strArg ca with
    | some c => findSolutionByCategory s P c err
    | none => findSolution s P err) := hr
  rcases hca : strArg ca with _ | c <;> rw [hca] at hr2
  · exact (mem_sorted_filter_take hr2).1
  · exact (mem_sorted_filter_take hr2).1

theorem find_solution_ids_nodup (s : State) (now : Nat) (P err : String)
    (ca : Option String) (hE : (s.errors.map ErrorRow.id).Nodup) :
    ((find_solution s now P err ca).1.map ErrorRow.id).Nodup := by
  have h : ∀ (p : ErrorRow → Bool) (n : Nat),
      ((((s.errors.filter p).insertionSort errOrd).take n).map
        ErrorRow.id).Nodup :=
    fun p n => nodup_map_take _ _ _
      (nodup_map_sorted ErrorRow.id errOrd p s.errors hE)
  show ((match strArg ca with
    | some c => findSolutionByCategory s P c err
    | none => findSolution s P err).map ErrorRow.id).Nodup
  rcases strArg ca with _ | c
  · exact h _ _
  · exact h _ _

theorem recallTrackSpecE_holds (s : State) (now : Nat) (P err : String)
    (ca : Option String) (hE : (s.errors.map ErrorRow.id).Nodup) :
    RecallTrackSpecE s now P err ca := by
  have hid : ∀ r : ErrorRow, (trackErrorAccess now r).id = r.id := fun r => rfl
  have hsub : ∀ r ∈ (find_solution s now P err ca).1, r ∈ s.errors :=
    fun r hr => find_solution_rows_mem s now P err ca hr
  have hres := find_solution_ids_nodup s now P err ca hE
  have hmain := trackFold_spec ErrorRow.id (trackErrorAccess now) hid hE hres hsub
  refine ⟨?_, ?_, ?_, rfl, rfl, rfl, rfl⟩
  · intro r hr
    refine ⟨trackErrorAccess now r, hmain.1 r hr, ?_⟩
    simp [trackErrorAccess, TrackedError]
  · exact hmain.2.1
  · exact hmain.2.2

theorem recall_learnings_rows_mem (s : State) (now : Nat) (P : String)
    (se : Option String) (li : Option Nat) {r : Learning}
    (hr : r ∈ (recall_learnings s now P se li).1) : r ∈ s.learnings := by
  have hr2 : r ∈ (match strArg se with
    | some q => searchLearnings s P q
    | none => getLearnings s P (jsNatOr li 20)) := hr
  rcases hse : strArg se with _ | q <;> rw [hse] at hr2
  · exact (mem_sorted_filter_take hr2).1
  · exact (mem_sorted_filter hr2).1

theorem recall_learnings_ids_nodup (s : State) (now : Nat) (P : String)
    (se : Option String) (li : Option Nat)
    (hL : (s.learnings.map Learning.id).Nodup) :
    ((recall_learnings s now P se li).1.map Learning.id).Nodup := by
  have h : ∀ (p : Learning → Bool) (n : Nat),
      ((((s.learnings.filter p).insertionSort learnOrd).take n).map
        Learning.id).Nodup :=
    fun p n => nodup_map_take _ _ _
      (nodup_map_sorted Learning.id learnOrd p s.learnings hL)
  have hs : ∀ (p : Learning → Bool),
      (((s.learnings.filter p).insertionSort learnOrd).map Learning.id).Nodup :=
    fun p => nodup_map_sorted Learning.id learnOrd p s.learnings hL
  show ((match strArg se with
    | some q => searchLearnings s P q
    | none => getLearnings s P (jsNatOr li 20)).map Learning.id).Nodup
  rcases strArg se with _ | q
  · exact h _ _
  · exact hs _

theorem recallTrackSpecL_holds (s : State) (now : Nat) (P : String)
    (se : Option String) (li : Option Nat)
    (hL : (s.learnings.map Learning.id).Nodup) :
    RecallTrackSpecL s now P se li := by
  have hid : ∀ r : Learning, (trackLearningAccess now r).id = r.id := fun r => rfl
  have hsub : ∀ r ∈ (recall_learnings s now P se li).1, r ∈ s.learnings :=
    fun r hr => recall_learnings_rows_mem s now P se li hr
  have hres := recall_learnings_ids_nodup s now P se li hL
  have hmain := trackFold_spec Learning.id (trackLearningAccess now) hid hL hres hsub
  refine ⟨?_, ?_, ?_, rfl, rfl, rfl, rfl⟩
  · intro r hr
    refine ⟨trackLearningAccess now r, hmain.1 r hr, ?_⟩
    simp [trackLearningAccess, TrackedLearning]
  · exact hmain.2.1
  · exact hmain.2.2

/-- C7: the recall-style reads (`recall_decisions`, `find_solution`,
`recall_learnings`) bump `access_count` by exactly one and stamp
`last_accessed` with now for each record they return, changing no other
stored field and no other table; the list-style reads (`list_decisions`,
`list_errors`) leave the store entirely unchanged. -/
theorem C7_access_tracking (s : State) (now : Nat) (P err : String)
    (se ca : Option String) (li : Option Nat)
    (hD : (s.decisions.map Decision.id).Nodup)
    (hE : (s.errors.map ErrorRow.id).Nodup)
    (hL : (s.learnings.map Learning.id).Nodup) :
    RecallTrackSpecD s now P se ca li
    ∧ RecallTrackSpecE s now P err ca
    ∧ RecallTrackSpecL s now P se li
    ∧ (handleRequest now (Request.list_decisions P li) s).2 = s
    ∧ (handleRequest now (Request.list_errors P li) s).2 = s :=
  ⟨recallTrackSpecD_holds s now P se ca li hD,
   recallTrackSpecE_holds s now P err ca hE,
   recallTrackSpecL_holds s now P se li hL, rfl, rfl⟩

theorem C7_access_tracking_witness :
    ((trackedState.decisions.map Decision.id).Nodup
      ∧ (trackedState.errors.map ErrorRow.id).Nodup
      ∧ (trackedState.learnings.map Learning.id).Nodup)
    ∧ (RecallTrackSpecD trackedState 5 "app" none none none
      ∧ RecallTrackSpecE trackedState 5 "app" "ECONN" none
      ∧ RecallTrackSpecL trackedState 5 "app" none none
      ∧ (handleRequest 5 (Request.list_decisions "app" none) trackedState).2
          = trackedState
      ∧ (handleRequest 5 (Request.list_errors "app" none) trackedState).2
          = trackedState) :=
  ⟨⟨by decide, by decide, by decide⟩,
   C7_access_tracking trackedState 5 "app" "ECONN" none none none
     (by decide) (by decide) (by decide)⟩

theorem C10_clear_session_witness :
    ((⟨"app", some "w2", "T2", none, none, 2⟩ : SessionRow)
        ∈ twoWorkspaceState.sessions)
    ∧ (("app" : String) = "app")
    ∧ ((some "w2" : Option String) ≠ some "w1")
    ∧ ((⟨"app", some "w2", "T2", none, none, 2⟩ : SessionRow)
        ∈ (clear_session twoWorkspaceState "app" (some "w1")).2.sessions) :=
  ⟨by decide, rfl, by decide,
   (C10_clear_session twoWorkspaceState "app" "w1" 0).2.2.2.2
     ⟨"app", some "w2", "T2", none, none, 2⟩ (by decide) rfl (by decide)⟩
